import Mathlib

/-!
Shallow embedding of the crackulate interpretation pipeline:
the tokenizer (`lexer`) and recursive-descent `Parser` from `js/lexerParser.js`,
the tree evaluator from `js/evaluator.js`, and the line orchestrators
`updateResults` (js/domUtils.js, first version, lines 46-96) and
`CalculationService.processLines`.

Numeric model: JavaScript numbers are embedded as `Val := Option ℚ`, where
`none` models the floating-point `NaN` sentinel and `some q` a finite number.
None of the verified properties depends on binary floating-point rounding,
and the specification explicitly allows any numeric type satisfying the
ordinary arithmetic laws.
-/

/-- A JavaScript numeric value: `none` is `NaN`, `some q` a finite number. -/
abbrev Val := Option ℚ

/-- JS `left + right`: `NaN` propagates through addition. -/
def jsAdd : Val → Val → Val
  | some a, some b => some (a + b)
  | _, _ => none

/-- JS `left - right`: `NaN` propagates through subtraction. -/
def jsSub : Val → Val → Val
  | some a, some b => some (a - b)
  | _, _ => none

/-- JS `left * right`: `NaN` propagates through multiplication. -/
def jsMul : Val → Val → Val
  | some a, some b => some (a * b)
  | _, _ => none

/-- The evaluator's division: `right === 0 ? NaN : left / right`
(js/evaluator.js line 31).  A zero divisor yields `NaN`; otherwise ordinary
division, with `NaN` operands propagating as in JS. -/
def jsDiv : Val → Val → Val
  | _, some 0 => none
  | some a, some b => some (a / b)
  | _, _ => none

/-- Whitespace for the lexer's `/\s/` test (ASCII cases; the exotic Unicode
whitespace in `\s` is irrelevant to every property proved here). -/
def jsSpace (c : Char) : Bool :=
  c = ' ' ∨ c = '\t' ∨ c = '\n' ∨ c = '\r' ∨ c = Char.ofNat 11 ∨ c = Char.ofNat 12

/-- Characters matched by the lexer's number scanner `/[0-9.]/`. -/
def numChar (c : Char) : Bool := c.isDigit ∨ c = '.'

/-- Decimal value of a digit string, `0` when empty (folding like `parseInt`
does on the digits it accepts). -/
def digitsToNat (ds : List Char) : Nat :=
  ds.foldl (fun n d => n * 10 + (d.toNat - '0'.toNat)) 0

/-- JS `parseInt(num)` on the digit run scanned after `#`: an empty run gives
`NaN` (modelled as `none`), otherwise the decimal value. -/
def parseIntOpt (ds : List Char) : Option Nat :=
  if ds = [] then none else some (digitsToNat ds)

/-- JS `parseFloat(num)` on a run of `[0-9.]` characters: an integer part,
optionally a dot and a fraction part; scanning stops at a second dot
(so `"1.2.3"` parses as `1.2`), and a run with no digit before the second
dot (such as `"."`) is `NaN`. -/
def parseFloatOpt (s : List Char) : Val :=
  let ip := s.takeWhile Char.isDigit
  match s.dropWhile Char.isDigit with
  | '.' :: r =>
    let fp := r.takeWhile Char.isDigit
    if ip = [] ∧ fp = [] then none
    else some ((digitsToNat ip : ℚ) + (digitsToNat fp : ℚ) / (10 ^ fp.length))
  | _ => if ip = [] then none else some (digitsToNat ip : ℚ)

/-- Tokens of `js/lexerParser.js` (`TokenTypes` plus the carried `value`).
`NUMBER` carries the `parseFloat` of the scanned run, `LINEREF` the
`parseInt` of the digits after `#` (`none` when there were no digits). -/
inductive Token
  | NUMBER (value : Val)
  | VARIABLE (value : String)
  | OPERATOR (value : Char)
  | ASSIGN
  | LPAREN
  | RPAREN
  | LINEREF (value : Option Nat)
deriving DecidableEq, Repr

theorem length_dropWhile_le (p : Char → Bool) :
    ∀ l : List Char, (l.dropWhile p).length ≤ l.length := by
  intro l
  induction l with
  | nil => simp [List.dropWhile]
  | cons c cs ih =>
    by_cases h : p c
    · simpa [List.dropWhile, h] using Nat.le_succ_of_le ih
    · simp [List.dropWhile, h]

/-- One step of the scanning loop of `lexer` (`js/lexerParser.js`,
lines 13-73), with explicit fuel so that the definition is structural and
computable; each iteration consumes at least one character, so the fuel
`input.length + 1` supplied by `lexer` is never exhausted.  The branches,
in source order: whitespace is skipped, `#digits` scans a `LINEREF`,
a digit/dot run scans a `NUMBER`, a letter-then-alphanumeric run scans a
`VARIABLE`, `+ - * /` become `OPERATOR`, then `=`, `(`, `)`, and every
other character is silently skipped (the final `i++` with no token). -/
def lexerAux : Nat → List Char → List Token
  | 0, _ => []
  | _, [] => []
  | fuel + 1, c :: cs =>
    if jsSpace c then lexerAux fuel cs
    else if c = '#' then
      Token.LINEREF (parseIntOpt (cs.takeWhile Char.isDigit)) ::
        lexerAux fuel (cs.dropWhile Char.isDigit)
    else if numChar c then
      Token.NUMBER (parseFloatOpt ((c :: cs).takeWhile numChar)) ::
        lexerAux fuel ((c :: cs).dropWhile numChar)
    else if c.isAlpha then
      Token.VARIABLE (String.mk ((c :: cs).takeWhile Char.isAlphanum)) ::
        lexerAux fuel ((c :: cs).dropWhile Char.isAlphanum)
    else if c = '+' ∨ c = '-' ∨ c = '*' ∨ c = '/' then
      Token.OPERATOR c :: lexerAux fuel cs
    else if c = '=' then Token.ASSIGN :: lexerAux fuel cs
    else if c = '(' then Token.LPAREN :: lexerAux fuel cs
    else if c = ')' then Token.RPAREN :: lexerAux fuel cs
    else lexerAux fuel cs

/-- The `lexer` function of `js/lexerParser.js` (lines 13-73). -/
def lexer (input : List Char) : List Token := lexerAux (input.length + 1) input

example : lexer "x = 10".data =
    [Token.VARIABLE "x", Token.ASSIGN, Token.NUMBER (some 10)] := by decide

example : lexer "-3+2".data =
    [Token.OPERATOR '-', Token.NUMBER (some 3), Token.OPERATOR '+',
     Token.NUMBER (some 2)] := by decide

/-- AST nodes of `js/lexerParser.js` / `js/evaluator.js` (the `type` tag of
each node object: `number`, `variable` (here `var`, a Lean keyword),
`lineref`, `binary`, `assignment`). -/
inductive Ast
  | number (value : Val)
  | var (name : String)
  | lineref (line : Option Nat)
  | binary (operator : Char) (left : Ast) (right : Ast)
  | assignment (vname : String) (expression : Ast)
deriving DecidableEq, Repr

/-- Everything any pipeline stage can throw: the parser's syntax errors, the
evaluator's runtime errors, the `Extra tokens after expression` check of the
orchestrators, and the JavaScript `TypeError` thrown by `Parser.parse` when
it reads `.type` of an `undefined` token.  `outOfFuel` is an artifact of the
fueled parser embedding and is unreachable for the fuel every caller
supplies. -/
inductive Err
  | undefinedVariable (name : String)
  | invalidLineRef
  | refIsError
  | unknownOperator (op : Char)
  | unexpectedEndOfInput
  | unexpectedToken
  | missingClosingParen
  | extraTokens
  | jsTypeError
  | outOfFuel
deriving DecidableEq, Repr

deriving instance DecidableEq for Except

/-- Is this token one the `parseExpression` loop continues on
(`['+', '-'].includes(this.peek().value)`)?  Only an `OPERATOR` token can
carry the value `'+'` or `'-'`. -/
def isAddOp : Token → Bool
  | Token.OPERATOR '+' => true
  | Token.OPERATOR '-' => true
  | _ => false

/-- Is this token one the `parseTerm` loop continues on
(`['*', '/'].includes(this.peek().value)`)? -/
def isMulOp : Token → Bool
  | Token.OPERATOR '*' => true
  | Token.OPERATOR '/' => true
  | _ => false

/-- The operator character of an `OPERATOR` token (its `value`). -/
def opChar : Token → Char
  | Token.OPERATOR c => c
  | _ => ' '

/-- A pending call of the mutually recursive `Parser` methods, so that the
whole recursive-descent parser is one function that is structurally
recursive on its fuel (and therefore computable by the kernel).  `expr`,
`term` and `factor` are `parseExpression`, `parseTerm` and `parseFactor` at
a given `index`; `exprLoop` and `termLoop` are their `while` loops with the
accumulated left operand. -/
inductive PC
  | expr (ix : Nat)
  | exprLoop (left : Ast) (ix : Nat)
  | term (ix : Nat)
  | termLoop (left : Ast) (ix : Nat)
  | factor (ix : Nat)
deriving Repr

/-- The recursive-descent core of the `Parser` class of `js/lexerParser.js`
(lines 101-141), case by case:

* `expr` — `parseExpression`: a term, then the `+`/`-` loop;
* `exprLoop` — the loop body: while the peeked token's value is `+` or `-`,
  consume it, parse a term, build a left-associated `binary` node;
* `term` — `parseTerm`: a factor, then the `*`/`/` loop;
* `termLoop` — analogous loop for `*` and `/`;
* `factor` — `parseFactor`: `consume()` a token (throwing
  `Unexpected end of input` when the list is exhausted); a number, variable
  or line reference becomes a leaf node; `(` parses a parenthesised
  expression that must be followed by `)` (else
  `Expected closing parenthesis`); any other token throws
  `Unexpected token`.

Each recursive call decrements the fuel; every cycle through these cases
consumes at least one token, so the fuel supplied by `parse` is never
exhausted on any input it passes. -/
def parseStep : Nat → List Token → PC → Except Err (Ast × Nat)
  | 0, _, _ => .error .outOfFuel
  | fuel + 1, toks, pc =>
    match pc with
    | .expr ix => do
      let (left, ix') ← parseStep fuel toks (.term ix)
      parseStep fuel toks (.exprLoop left ix')
    | .exprLoop left ix =>
      match toks.get? ix with
      | some t =>
        if isAddOp t then do
          let (right, ix') ← parseStep fuel toks (.term (ix + 1))
          parseStep fuel toks (.exprLoop (.binary (opChar t) left right) ix')
        else .ok (left, ix)
      | none => .ok (left, ix)
    | .term ix => do
      let (left, ix') ← parseStep fuel toks (.factor ix)
      parseStep fuel toks (.termLoop left ix')
    | .termLoop left ix =>
      match toks.get? ix with
      | some t =>
        if isMulOp t then do
          let (right, ix') ← parseStep fuel toks (.factor (ix + 1))
          parseStep fuel toks (.termLoop (.binary (opChar t) left right) ix')
        else .ok (left, ix)
      | none => .ok (left, ix)
    | .factor ix =>
      match toks.get? ix with
      | none => .error .unexpectedEndOfInput
      | some t =>
        match t with
        | Token.NUMBER v => .ok (.number v, ix + 1)
        | Token.VARIABLE n => .ok (.var n, ix + 1)
        | Token.LINEREF n => .ok (.lineref n, ix + 1)
        | Token.LPAREN => do
          let (e, ix') ← parseStep fuel toks (.expr (ix + 1))
          match toks.get? ix' with
          | none => .error .missingClosingParen
          | some t2 =>
            if t2 = Token.RPAREN then .ok (e, ix' + 1)
            else .error .missingClosingParen
        | _ => .error .unexpectedToken

/-- `Parser.parseExpression` entered at token index `ix`. -/
def parseExpression (fuel : Nat) (toks : List Token) (ix : Nat) :
    Except Err (Ast × Nat) :=
  parseStep fuel toks (.expr ix)

/-- `Parser.parseAssignment` (lines 94-99): consume the variable token and
the `=`, then parse the right-hand expression. -/
def parseAssignment (fuel : Nat) (toks : List Token) (name : String) :
    Except Err (Ast × Nat) := do
  let (expression, ix') ← parseExpression fuel toks 2
  .ok (.assignment name expression, ix')

/-- `Parser.parse` (js/lexerParser.js lines 86-92) on a fresh parser
(`index = 0`), returning the parsed statement (or `none` for an empty token
list) together with the parser's final `index`, which the callers query
through `hasNext()`.

The assignment guard is translated literally: when the first token is a
`VARIABLE`, `hasNext()` only rechecks that token's own existence, after
which the source reads `this.tokens[this.index + 1].type`; on a one-token
list that subscript is `undefined` and the property access throws a
`TypeError` (modelled as `Err.jsTypeError`). -/
def parse (toks : List Token) : Except Err (Option Ast × Nat) :=
  let fuel := 4 * toks.length + 8
  match toks.get? 0 with
  | none => .ok (none, 0)
  | some (Token.VARIABLE name) =>
    match toks.get? 1 with
    | none => .error .jsTypeError
    | some t1 =>
      if t1 = Token.ASSIGN then do
        let (ast, ix') ← parseAssignment fuel toks name
        .ok (some ast, ix')
      else do
        let (ast, ix') ← parseExpression fuel toks 0
        .ok (some ast, ix')
  | some _ => do
    let (ast, ix') ← parseExpression fuel toks 0
    .ok (some ast, ix')

example : parse (lexer "x = 10".data) =
    .ok (some (.assignment "x" (.number (some 10))), 3) := by decide

example : parse (lexer "y - 5".data) =
    .ok (some (.binary '-' (.var "y") (.number (some 5))), 3) := by decide

example : parse [Token.VARIABLE "a"] = .error .jsTypeError := by decide

example : parse (lexer "-3+2".data) = .error .unexpectedToken := by decide

/-- A variable scope: a JavaScript object mapping names to numeric values,
modelled as an association list with unique keys (`scopeSet` overwrites). -/
abbrev ScopeMap := List (String × Val)

/-- JS property read combined with the `name in scope` test: `none` when the
key is absent, `some v` for the stored value (which may itself be `NaN`). -/
def scopeGet (scope : ScopeMap) (name : String) : Option Val :=
  (scope.find? (fun p => p.1 = name)).map (·.2)

/-- JS property write `scope[name] = v`: overwrite an existing binding or
append a new one. -/
def scopeSet (scope : ScopeMap) (name : String) (v : Val) : ScopeMap :=
  if (scope.find? (fun p => p.1 = name)).isSome then
    scope.map (fun p => if p.1 = name then (p.1, v) else p)
  else scope ++ [(name, v)]

/-- One entry of the `results` array the orchestrators build and the
evaluator's `lineResults` parameter reads: the strings that actually occur
there, plus `num q` for a recorded numeric value (the form the evaluator's
tests feed in, and the form the in-source comments intend the orchestrator
to record).

* `dash` — the string `'-'` pushed for an empty line;
* `zeroS` — the string `'0'`;
* `err` — the string `'e'` pushed when a line threw;
* `obj` — the string `"[object Object]"`: `updateResults` pushes
  `result.toString()` where `result` is the `{result, scope}` pair object
  returned by `evaluate`;
* `num q` — a recorded numeric value `q` (e.g. the string `"10"`). -/
inductive Entry
  | dash
  | zeroS
  | err
  | obj
  | num (q : ℚ)
deriving DecidableEq, Repr

/-- JS `parseFloat(refValue)` on a recorded entry: `'-'` and
`"[object Object]"` parse as `NaN`, `'0'` as `0`, a recorded numeric value
as itself; `'e'` also gives `NaN` but is unreachable (the evaluator throws
on it first). -/
def entryNum : Entry → Val
  | .dash => none
  | .zeroS => some 0
  | .err => none
  | .obj => none
  | .num q => some q

/-- The `evaluate` function of `js/evaluator.js` (lines 2-43) on a non-null
AST node, returning the `{result, scope}` pair (or the thrown error):

* `number` — the literal value;
* `variable` — scope lookup, throwing `Undefined variable` when the name is
  absent;
* `lineref` — `lineIndex = ast.line - 1`; throws `Invalid line reference`
  when `lineIndex >= currentLine`, `lineIndex < 0`, or
  `lineResults[lineIndex]` is `undefined` (all three also hold when the
  scanned `#` had no digits, so `ast.line` is `NaN`, modelled as `none`);
  throws `Cannot reference an error` when the entry is `'e'`; otherwise
  returns `parseFloat` of the entry;
* `binary` — evaluates left then right, threading the returned scopes, then
  applies the operator; a divisor equal to `0` yields `NaN`; an operator
  other than `+ - * /` throws `Unknown operator`;
* `assignment` — evaluates the expression, then stores the value into a
  fresh copy of the returned scope (`{...evalExpression.scope}`) which
  becomes the returned scope; the caller's scope object is not written.

The `!ast` (null) case and the final `Unknown AST node type` throw have no
counterpart here: `Ast` is exhaustive and the null statement is handled at
the orchestrator's call site. -/
def evaluate : Ast → ScopeMap → List Entry → Nat → Except Err (Val × ScopeMap)
  | .number v, scope, _, _ => .ok (v, scope)
  | .var name, scope, _, _ =>
    match scopeGet scope name with
    | none => .error (.undefinedVariable name)
    | some v => .ok (v, scope)
  | .lineref n?, scope, lineResults, currentLine =>
    match n? with
    | none => .error .invalidLineRef
    | some n =>
      let lineIndex : Int := (n : Int) - 1
      if (currentLine : Int) ≤ lineIndex ∨ lineIndex < 0 then
        .error .invalidLineRef
      else
        match lineResults.get? lineIndex.toNat with
        | none => .error .invalidLineRef
        | some refValue =>
          if refValue = .err then .error .refIsError
          else .ok (entryNum refValue, scope)
  | .binary op l r, scope, lineResults, currentLine =>
    match evaluate l scope lineResults currentLine with
    | .error e => .error e
    | .ok (left, scope1) =>
      match evaluate r scope1 lineResults currentLine with
      | .error e => .error e
      | .ok (right, scope2) =>
        match op with
        | '+' => .ok (jsAdd left right, scope2)
        | '-' => .ok (jsSub left right, scope2)
        | '*' => .ok (jsMul left right, scope2)
        | '/' => .ok (jsDiv left right, scope2)
        | _ => .error (.unknownOperator op)
  | .assignment x e, scope, lineResults, currentLine =>
    match evaluate e scope lineResults currentLine with
    | .error er => .error er
    | .ok (value, scope1) => .ok (value, scopeSet scope1 x value)

example : evaluate (.assignment "x" (.number (some 10))) [] [] 0 =
    .ok (some 10, [("x", some 10)]) := by decide

example : evaluate (.binary '/' (.number (some 5)) (.number (some 0))) [] [] 0 =
    .ok (none, []) := by decide

example : evaluate (.var "y") [] [] 2 = .error (.undefinedVariable "y") := by
  decide

example : evaluate (.lineref (some 1)) [] [Entry.num 7] 1 =
    .ok (some 7, []) := by decide

/-- JS `String.prototype.trim()`: strip whitespace from both ends. -/
def jsTrim (s : List Char) : List Char :=
  ((s.dropWhile jsSpace).reverse.dropWhile jsSpace).reverse

/-- The body of the `try` block of `updateResults` (js/domUtils.js, first
version, lines 60-83) for one non-empty trimmed line: lex; an empty token
list records `'0'`; parse and throw `Extra tokens after expression` when
`parser.hasNext()`; evaluate against the run's `tempScope`, the results so
far, and the line index.

On success the source pushes `result.toString()`, where `result` is the
whole `{result, scope}` pair object returned by `evaluate`
(js/domUtils.js line 73 does not destructure it): that object is never
`null` and has no `isNaN` method, so the two `'0'` branches of lines 76-80
are unreachable and the pushed string is always `"[object Object]"`
(`Entry.obj`).  The same applies to the `ast = null` case, which `evaluate`
turns into the pair `{result: null, scope}`.  The thrown error, whichever
stage raised it, is the `catch`'s business (see `lineEntry`). -/
def processLineE (tempScope : ScopeMap) (results : List Entry) (index : Nat)
    (trimmedLine : List Char) : Except Err Entry :=
  let tokens := lexer trimmedLine
  if tokens.length = 0 then .ok .zeroS
  else do
    let (ast?, ix') ← parse tokens
    if ix' < tokens.length then .error .extraTokens
    else
      match ast? with
      | none => .ok .obj
      | some ast => do
        let _ ← evaluate ast tempScope results index
        .ok .obj

/-- One iteration of the `lines.forEach` of `updateResults`: an empty
trimmed line records `'-'`; otherwise the `try` body runs and any thrown
error is caught and recorded as `'e'`. -/
def lineEntry (tempScope : ScopeMap) (results : List Entry) (index : Nat)
    (line : String) : Entry :=
  let trimmedLine := jsTrim line.data
  if trimmedLine = [] then .dash
  else
    match processLineE tempScope results index trimmedLine with
    | .ok e => e
    | .error _ => .err

/-- The `lines.forEach` loop of `updateResults`, carrying the results
pushed so far and the current index.  `tempScope` is passed unchanged to
every line: the source never rebinds `tempScope` after line 73's call and
`evaluate` never writes the object it is given (proved below on the heap
model as `evaluateHeap_frame`), so the object holds its initial contents
for the whole pass. -/
def runFrom (tempScope : ScopeMap) (results : List Entry) (index : Nat) :
    List String → List Entry
  | [] => []
  | line :: rest =>
    let e := lineEntry tempScope results index line
    e :: runFrom tempScope (results ++ [e]) (index + 1) rest

/-- The `updateResults` function of js/domUtils.js (first version,
lines 46-96), as a function of the editor's lines and the current
`globalScope`: `tempScope` starts as the shallow copy `{...globalScope}`,
the `forEach` runs, and the final `globalScope = tempScope` makes the new
global scope the (unchanged) contents of `tempScope`. -/
def updateResults (lines : List String) (globalScope : ScopeMap) :
    List Entry × ScopeMap :=
  (runFrom globalScope [] 0 lines, globalScope)

example : updateResults ["x = 10", "y = x * 2", "y - 5"] [] =
    ([.obj, .err, .err], []) := by decide

example : updateResults ["5 / 0"] [] = ([.obj], []) := by decide

example : updateResults ["", "a + 0"] [("a", some 1)] =
    ([.dash, .obj], [("a", some 1)]) := by decide

/-- The `type` tag of a result record of
`CalculationService.processLines` / `#processLine` (src/unnamed/part_003). -/
inductive PType
  | empty
  | error
  | number
  | null
  | nan
deriving DecidableEq, Repr

/-- A result record of `CalculationService`: its displayed `value` (same
value space as the `updateResults` entries) and its `type` tag.  The `raw`,
`error` and `line` fields of the source records carry auxiliary detail that
no claim consults; they are omitted. -/
structure PRes where
  value : Entry
  ty : PType
deriving DecidableEq, Repr

/-- The inner `try` block of `CalculationService.#processLine`
(src/unnamed/part_003 lines 67-104): lex; zero tokens gives `{value: '0',
type: 'empty'}`; parse, then `Extra tokens after expression` when
`parser.hasNext()`; evaluate against the (empty) temp scope and
`simpleResults`.  As in `updateResults`, the returned `value` is the
`{result, scope}` pair object, never `null` and with no `isNaN` method, so
the `'null'`/`'nan'` branches are unreachable and the record is
`{value: value.toString() = "[object Object]", type: 'number'}`. -/
def processLineTry (scope : ScopeMap) (simpleResults : List Entry)
    (index : Nat) (trimmed : List Char) : Except Err PRes :=
  let tokens := lexer trimmed
  if tokens.length = 0 then .ok ⟨.zeroS, .empty⟩
  else do
    let (ast?, ix') ← parse tokens
    if ix' < tokens.length then .error .extraTokens
    else
      match ast? with
      | none => .ok ⟨.obj, .number⟩
      | some ast => do
        let _ ← evaluate ast scope simpleResults index
        .ok ⟨.obj, .number⟩

/-- `CalculationService.#processLine` on a line the caller already found
non-empty: run the `try` block; the `catch` converts any thrown error into
`{value: 'e', type: 'error'}`.  (The outer `catch` of `processLines` is
then unreachable.) -/
def processLine (scope : ScopeMap) (simpleResults : List Entry) (index : Nat)
    (line : String) : PRes :=
  match processLineTry scope simpleResults index (jsTrim line.data) with
  | .ok r => r
  | .error _ => ⟨.err, .error⟩

/-- The `for (const [index, line] of lines.entries())` loop of
`CalculationService.processLines`: an empty trimmed line pushes
`{value: '-', type: 'empty'}`; otherwise `#processLine` runs with
`simpleResults = results.map(r => r.value)`. -/
def plFrom (results : List PRes) (index : Nat) : List String → List PRes
  | [] => []
  | line :: rest =>
    let r :=
      if jsTrim line.data = [] then PRes.mk .dash .empty
      else processLine [] (results.map (·.value)) index line
    r :: plFrom (results ++ [r]) (index + 1) rest

/-- `CalculationService.processLines` (src/unnamed/part_003 lines 20-50):
`tempScope` starts as the literal `{}` — the `variables` parameter is never
read again — and, since `evaluate` never writes the object it is given and
the returned scope is discarded, `updatedVariables` is still `{}` at the
end. -/
def processLines (lines : List String) (vars : ScopeMap) :
    List PRes × ScopeMap :=
  (plFrom [] 0 lines, [])

example : processLines ["a = 1", "a"] [("zz", some 3)] =
    ([⟨.obj, .number⟩, ⟨.err, .error⟩], []) := by decide

/-- A heap of scope objects, for reasoning about mutation: an object
identity is an index into the list, and allocating the fresh object
`{...scope}` appends.  This models the JavaScript aliasing semantics of
`evaluate`'s `scope` parameter, which the purely functional `evaluate`
above cannot express. -/
abbrev Heap := List ScopeMap

/-- The contents of the scope object `sid` on heap `H`. -/
def heapGet (H : Heap) (sid : Nat) : ScopeMap := (H.get? sid).getD []

/-- The `evaluate` function of `js/evaluator.js` again, but with the scope
argument passed as an object reference into an explicit heap, so that
"mutates the object it was given" is expressible.  Every branch matches
`evaluate` (see its doc comment); the only heap action is in the
`assignment` case, which builds the fresh copy
`newScope = {...evalExpression.scope}` with the new binding, allocates it,
and returns its reference — it never writes through `sid`. -/
def evaluateHeap : Ast → Nat → Heap → List Entry → Nat →
    Except Err (Val × Nat × Heap)
  | .number v, sid, H, _, _ => .ok (v, sid, H)
  | .var name, sid, H, _, _ =>
    match scopeGet (heapGet H sid) name with
    | none => .error (.undefinedVariable name)
    | some v => .ok (v, sid, H)
  | .lineref n?, sid, H, lineResults, currentLine =>
    match n? with
    | none => .error .invalidLineRef
    | some n =>
      let lineIndex : Int := (n : Int) - 1
      if (currentLine : Int) ≤ lineIndex ∨ lineIndex < 0 then
        .error .invalidLineRef
      else
        match lineResults.get? lineIndex.toNat with
        | none => .error .invalidLineRef
        | some refValue =>
          if refValue = .err then .error .refIsError
          else .ok (entryNum refValue, sid, H)
  | .binary op l r, sid, H, lineResults, currentLine =>
    match evaluateHeap l sid H lineResults currentLine with
    | .error e => .error e
    | .ok (left, sid1, H1) =>
      match evaluateHeap r sid1 H1 lineResults currentLine with
      | .error e => .error e
      | .ok (right, sid2, H2) =>
        match op with
        | '+' => .ok (jsAdd left right, sid2, H2)
        | '-' => .ok (jsSub left right, sid2, H2)
        | '*' => .ok (jsMul left right, sid2, H2)
        | '/' => .ok (jsDiv left right, sid2, H2)
        | _ => .error (.unknownOperator op)
  | .assignment x e, sid, H, lineResults, currentLine =>
    match evaluateHeap e sid H lineResults currentLine with
    | .error er => .error er
    | .ok (value, sid1, H1) =>
      .ok (value, H1.length, H1 ++ [scopeSet (heapGet H1 sid1) x value])

/-- Frame property of the heap evaluator: a successful evaluation only
grows the heap and never changes the contents of any pre-existing scope
object — in particular the caller's. -/
theorem evaluateHeap_frame (ast : Ast) :
    ∀ sid H lineResults currentLine v sid' H',
      evaluateHeap ast sid H lineResults currentLine = .ok (v, sid', H') →
      H.length ≤ H'.length ∧ ∀ j, j < H.length → H'.get? j = H.get? j := by
  induction ast with
  | number w =>
    intro sid H lineResults currentLine v sid' H' h
    simp only [evaluateHeap] at h
    obtain ⟨-, -, rfl⟩ := h
    exact ⟨le_rfl, fun j _ => rfl⟩
  | var name =>
    intro sid H lineResults currentLine v sid' H' h
    simp only [evaluateHeap] at h
    split at h
    · exact absurd h (by simp)
    · simp only [Except.ok.injEq, Prod.mk.injEq] at h
      obtain ⟨-, -, rfl⟩ := h
      exact ⟨le_rfl, fun j _ => rfl⟩
  | lineref n? =>
    intro sid H lineResults currentLine v sid' H' h
    simp only [evaluateHeap] at h
    split at h
    · exact absurd h (by simp)
    · split at h
      · exact absurd h (by simp)
      · split at h
        · exact absurd h (by simp)
        · split at h
          · exact absurd h (by simp)
          · simp only [Except.ok.injEq, Prod.mk.injEq] at h
            obtain ⟨-, -, rfl⟩ := h
            exact ⟨le_rfl, fun j _ => rfl⟩
  | binary op l r ihl ihr =>
    intro sid H lineResults currentLine v sid' H' h
    simp only [evaluateHeap] at h
    split at h
    · exact absurd h (by simp)
    next left sid1 H1 hl =>
      split at h
      · exact absurd h (by simp)
      next right sid2 H2 hr =>
        obtain ⟨h1l, h1g⟩ := ihl sid H lineResults currentLine left sid1 H1 hl
        obtain ⟨h2l, h2g⟩ := ihr sid1 H1 lineResults currentLine right sid2 H2 hr
        have hH2 : H2 = H' := by
          split at h
          all_goals first
            | (simp only [Except.ok.injEq, Prod.mk.injEq] at h; exact h.2.2)
            | simp at h
        subst hH2
        refine ⟨le_trans h1l h2l, fun j hj => ?_⟩
        rw [h2g j (lt_of_lt_of_le hj h1l), h1g j hj]
  | assignment x e ihe =>
    intro sid H lineResults currentLine v sid' H' h
    simp only [evaluateHeap] at h
    split at h
    · exact absurd h (by simp)
    next value sid1 H1 he =>
      simp only [Except.ok.injEq, Prod.mk.injEq] at h
      obtain ⟨-, -, hH'⟩ := h
      subst hH'
      obtain ⟨h1l, h1g⟩ := ihe sid H lineResults currentLine value sid1 H1 he
      refine ⟨?_, fun j hj => ?_⟩
      · simpa using le_trans h1l (Nat.le_succ _)
      · rw [List.get?_append (lt_of_lt_of_le hj h1l), h1g j hj]

theorem runFrom_length (ls : List String) :
    ∀ (s : ScopeMap) (acc : List Entry) (i : Nat),
      (runFrom s acc i ls).length = ls.length := by
  induction ls with
  | nil => intro s acc i; simp [runFrom]
  | cons l rest ih => intro s acc i; simp [runFrom, ih]

theorem plFrom_length (ls : List String) :
    ∀ (acc : List PRes) (i : Nat), (plFrom acc i ls).length = ls.length := by
  induction ls with
  | nil => intro acc i; simp [plFrom]
  | cons l rest ih => intro acc i; simp [plFrom, ih]

/-- Decomposition of the `forEach` of `updateResults`: the outcome at any
position `j` is exactly `lineEntry` — the full tokenize/parse/evaluate
pipeline with its surrounding `catch` — applied to line `j`, the constant
`tempScope`, the outcomes accumulated for lines `0..j-1`, and the index
`j`.  Nothing that happened on earlier lines (in particular an error) can
keep a later line from being processed. -/
theorem runFrom_getD (ls : List String) :
    ∀ (s : ScopeMap) (acc : List Entry) (i j : Nat), j < ls.length →
      (runFrom s acc i ls).getD j .dash =
        lineEntry s (acc ++ (runFrom s acc i ls).take j) (i + j)
          (ls.getD j "") := by
  induction ls with
  | nil => intro s acc i j hj; simp at hj
  | cons l rest ih =>
    intro s acc i j hj
    cases j with
    | zero => simp [runFrom]
    | succ j' =>
      have hj' : j' < rest.length := by simpa using hj
      have harith : i + 1 + j' = i + (j' + 1) := by omega
      simp only [runFrom, List.getD_cons_succ, List.take_succ_cons]
      rw [ih s (acc ++ [lineEntry s acc i l]) (i + 1) j' hj']
      rw [harith]
      simp [List.append_assoc]

/-- The characters the lexer recognises: whitespace, digits, `.`, letters,
`#`, the four operators, `=`, and parentheses — every branch condition of
the scanning loop in order. -/
def recognizedChar (c : Char) : Bool :=
  jsSpace c || c = '#' || numChar c || c.isAlpha ||
    c = '+' || c = '-' || c = '*' || c = '/' || c = '=' || c = '(' || c = ')'

/-- C1: for `["x = 10", "y = x * 2", "y - 5"]` and an empty scope the claim
expects outcomes `[10, 20, 15]` and final scope `{x: 10, y: 20}`.  The code
disagrees: `updateResults` never destructures the `{result, scope}` pair
`evaluate` returns, so line 0 records the string `"[object Object]"`
(`Entry.obj`), the binding `x = 10` never reaches `tempScope`, lines 1 and
2 throw `Undefined variable` and record `'e'`, and the final scope is still
empty.  The second conjunct shows `evaluate` itself does return the new
binding — the orchestrator simply drops it. -/
theorem claim1_run_scenario :
    updateResults ["x = 10", "y = x * 2", "y - 5"] [] =
      ([Entry.obj, Entry.err, Entry.err], []) ∧
    evaluate (.assignment "x" (.number (some 10))) [] [] 0 =
      .ok (some 10, [("x", some 10)]) := by decide

/-- C2: error isolation in `updateResults`.  If processing line `i` (whose
trimmed text is non-empty) throws — any syntax or evaluation error `er` —
then the pass still returns one outcome per line, line `i`'s own outcome is
the error marker `'e'`, and every line `j` in the pass (in particular every
later one) has exactly the outcome of running the full
tokenize/parse/evaluate pipeline (`lineEntry`) on line `j` itself with the
outcomes accumulated before it: no error aborts the `forEach`, and no error
escapes `updateResults`, whose result type carries no error case — the
per-line `catch` (the `.error → 'e'` arm of `lineEntry`) absorbs every
throw. -/
theorem claim2_error_isolation (lines : List String) (scope : ScopeMap)
    (i : Nat) (hi : i < lines.length)
    (hne : jsTrim (lines.getD i "").data ≠ [])
    (he : ∃ er, processLineE scope ((updateResults lines scope).1.take i) i
        (jsTrim (lines.getD i "").data) = .error er) :
    (updateResults lines scope).1.length = lines.length ∧
    (updateResults lines scope).1.getD i .dash = .err ∧
    (∀ j, j < lines.length →
      (updateResults lines scope).1.getD j .dash =
        lineEntry scope ((updateResults lines scope).1.take j) j
          (lines.getD j "")) := by
  refine ⟨runFrom_length lines scope [] 0, ?_, ?_⟩
  · have hd := runFrom_getD lines scope [] 0 i hi
    obtain ⟨er, her⟩ := he
    simp only [updateResults] at her ⊢
    rw [List.nil_append, Nat.zero_add] at hd
    rw [hd]
    simp only [lineEntry]
    rw [if_neg hne, her]
  · intro j hj
    have hd := runFrom_getD lines scope [] 0 j hj
    simp only [updateResults]
    rw [List.nil_append, Nat.zero_add] at hd
    exact hd

theorem claim2_witness :
    (updateResults ["1 +", "2"] []).1.length =
      (["1 +", "2"] : List String).length ∧
    (updateResults ["1 +", "2"] []).1.getD 0 .dash = .err ∧
    (∀ j, j < (["1 +", "2"] : List String).length →
      (updateResults ["1 +", "2"] []).1.getD j .dash =
        lineEntry [] ((updateResults ["1 +", "2"] []).1.take j) j
          ((["1 +", "2"] : List String).getD j "")) :=
  claim2_error_isolation ["1 +", "2"] [] 0 (by decide) (by decide)
    ⟨.unexpectedEndOfInput, by decide⟩

/-- C3: both orchestrators return exactly one outcome per input line —
every branch of the per-line processing (empty, zero tokens, success,
caught error) pushes exactly one entry. -/
theorem claim3_length_invariant (lines : List String) (scope : ScopeMap) :
    (updateResults lines scope).1.length = lines.length ∧
    (processLines lines scope).1.length = lines.length :=
  ⟨runFrom_length lines scope [] 0, plFrom_length lines [] 0⟩

/-- C4: evaluating `LineRef(n)` at current line index `i` against a results
history with one entry per earlier line (`hist.length = i`): unless
`1 ≤ n` and `n - 1 < i` — note the strict inequality, so `n - 1 = i`
(a self-reference) and any forward reference fail — the result is the
`Invalid line reference` error; when the referenced entry is the error
marker `'e'` the result is the `Cannot reference an error` error; otherwise
the result is the numeric value recorded at entry `n - 1` (its
`parseFloat`), with the scope untouched. -/
theorem claim4_lineref (n i : Nat) (hist : List Entry) (scope : ScopeMap)
    (h : hist.length = i) :
    (¬(1 ≤ n ∧ n - 1 < i) →
      evaluate (.lineref (some n)) scope hist i = .error .invalidLineRef) ∧
    (1 ≤ n → n - 1 < i →
      (hist.getD (n - 1) .err = .err →
        evaluate (.lineref (some n)) scope hist i = .error .refIsError) ∧
      (hist.getD (n - 1) .err ≠ .err →
        evaluate (.lineref (some n)) scope hist i =
          .ok (entryNum (hist.getD (n - 1) .err), scope))) := by
  constructor
  · intro hcond
    have hc : (i : Int) ≤ (n : Int) - 1 ∨ (n : Int) - 1 < 0 := by omega
    simp only [evaluate]
    rw [if_pos hc]
  · intro hn hlt
    have hc : ¬((i : Int) ≤ (n : Int) - 1 ∨ (n : Int) - 1 < 0) := by omega
    have htn : ((n : Int) - 1).toNat = n - 1 := by omega
    have hlen : n - 1 < hist.length := by omega
    have hget0 : hist.get? (n - 1) = some (hist.getD (n - 1) .err) := by
      rw [List.get?_eq_getElem?, List.getElem?_eq_getElem hlen]
      simp [List.getD_eq_getElem?_getD, List.getElem?_eq_getElem hlen]
    refine ⟨fun hE => ?_, fun hE => ?_⟩
    · simp only [evaluate]
      rw [if_neg hc, htn, hget0]
      simp only [List.getD_eq_getElem?_getD] at hE
      simp [hE]
    · simp only [evaluate]
      rw [if_neg hc, htn, hget0]
      simp only [List.getD_eq_getElem?_getD] at hE
      simp [hE]

theorem claim4_witness :
    evaluate (.lineref (some 1)) [] [Entry.num 7] 1 = .ok (some 7, []) :=
  ((claim4_lineref 1 1 [Entry.num 7] [] rfl).2 (by decide) (by decide)).2
    (by decide)

/-- C5: `5 / 0` never throws — `evaluate` returns `NaN` (`none`) with the
scope untouched — and the recorded outcome is not the error marker, so a
later `LineRef` to it cannot fail with `Cannot reference an error`.  But
the claim's "displayed outcome is zero" fails on the code: the `isNaN`
check of `updateResults` is applied to the `{result, scope}` pair object,
which has no `isNaN` method, so the `'0'` branch is unreachable and the
line records `"[object Object]"` (`Entry.obj`), not `'0'`
(`Entry.zeroS`). -/
theorem claim5_div_by_zero :
    evaluate (.binary '/' (.number (some 5)) (.number (some 0))) [] [] 0 =
      .ok (none, []) ∧
    updateResults ["5 / 0"] [] = ([Entry.obj], []) ∧
    Entry.obj ≠ Entry.zeroS ∧ Entry.obj ≠ Entry.err := by decide

/-- C6: scope lifecycle across passes.  Conjunct 1: pass 1 on
`["a = 1", "a"]` from an empty scope returns the unchanged empty scope (the
claimed `{a: 1}` is never built — `updateResults` drops the scope
`evaluate` returns) and outcomes `["[object Object]", 'e']`, not `[1, 1]`
(line 1's bare `a` throws the parser's `TypeError`, below).  Conjunct 2:
even with `a` bound, processing the bare line `"a"` fails with that
`TypeError`, not with `Undefined variable`.  Conjunct 3: with a previous
scope `{a: 1}`, the pass `["", "a + 0"]` — the assignment line removed —
still evaluates `a` successfully and returns `{a: 1}` again: a binding
from a previous pass's scope survives into a pass whose lines no longer
assign it, contradicting the claimed rebuild-from-empty. -/
theorem claim6_scope_rebuild :
    updateResults ["a = 1", "a"] [] = ([Entry.obj, Entry.err], []) ∧
    processLineE [("a", some 1)] [Entry.dash] 1 (jsTrim "a".data) =
      .error .jsTypeError ∧
    updateResults ["", "a + 0"] [("a", some 1)] =
      ([Entry.dash, Entry.obj], [("a", some 1)]) := by decide

/-- C7: the assignment guard of `Parser.parse` reads
`this.tokens[this.index + 1].type` guarded only by `hasNext()`, which
checks the current index, not the next one; on the one-token list
`[Identifier]` that subscript is `undefined` and the property access throws
a `TypeError`, so a line holding a bare variable name becomes an error
outcome instead of parsing as a `VariableRef` — even when the variable is
defined.  A one-token list that does not start with an identifier falls
through to `parseExpression` as claimed (conjunct 3). -/
theorem claim7_single_identifier :
    parse [Token.VARIABLE "x"] = .error .jsTypeError ∧
    updateResults ["x"] [("x", some 1)] = ([Entry.err], [("x", some 1)]) ∧
    parse [Token.NUMBER (some 5)] = .ok (some (.number (some 5)), 1) := by
  decide

/-- C8: the lexer is total — it is a plain function into token lists, with
no error case — and a character outside every recognised class
(whitespace, digit, `.`, letter, `#`, `+`, `-`, `*`, `/`, `=`, `(`, `)`)
at the scanning position is skipped outright: the lexer of the remaining
input is unchanged and no token is emitted for it. -/
theorem claim8_lexer_skips (c : Char) (cs : List Char)
    (h : recognizedChar c = false) : lexer (c :: cs) = lexer cs := by
  simp only [recognizedChar, Bool.or_eq_false_iff, decide_eq_false_iff_not]
    at h
  obtain ⟨⟨⟨⟨⟨⟨⟨⟨⟨⟨h1, h2⟩, h3⟩, h4⟩, h5⟩, h6⟩, h7⟩, h8⟩, h9⟩, h10⟩, h11⟩ := h
  show lexerAux (cs.length + 1 + 1) (c :: cs) = lexer cs
  simp only [lexerAux, h1, h2, h3, h4, h5, h6, h7, h8, h9, h10, h11,
    Bool.false_eq_true, if_false, or_self, or_false, false_or]
  rfl

theorem claim8_witness :
    recognizedChar '@' = false ∧ lexer ('@' :: "1+2".data) = lexer "1+2".data :=
  ⟨by decide, claim8_lexer_skips '@' "1+2".data (by decide)⟩

/-- C9 counterexample: the claim says the pipeline silently drops the
leading `-` of `"-3+2"` and evaluates `3 + 2` to the successful outcome
`5`.  In fact the lexer emits an `OPERATOR '-'` token for it (nothing is
dropped), `parseFactor` then throws `Unexpected token` on that leading
operator, and the line's outcome is the error marker — not a success, let
alone `5`. -/
theorem claim9_counterexample :
    lexer "-3+2".data =
      [Token.OPERATOR '-', Token.NUMBER (some 3), Token.OPERATOR '+',
       Token.NUMBER (some 2)] ∧
    parse (lexer "-3+2".data) = .error .unexpectedToken ∧
    updateResults ["-3+2"] [] = ([Entry.err], []) ∧
    (∀ a ix, parse (lexer "-3+2".data) ≠ .ok (a, ix)) := by
  refine ⟨by decide, by decide, by decide, ?_⟩
  intro a ix hcontra
  have hp : parse (lexer "-3+2".data) = .error .unexpectedToken := by decide
  rw [hp] at hcontra
  exact absurd hcontra (by simp)

/-- C9 as amended: `"-3+2"` lexes its leading `-` into an operator token,
parsing fails with `Unexpected token` (there is no unary minus), and the
line's outcome is an error; `"3-2"` parses as the binary subtraction
`3 - 2` and evaluates to `1`. -/
theorem claim9_amended :
    parse (lexer "-3+2".data) = .error .unexpectedToken ∧
    updateResults ["-3+2"] [] = ([Entry.err], []) ∧
    parse (lexer "3-2".data) =
      .ok (some (.binary '-' (.number (some 3)) (.number (some 2))), 3) ∧
    evaluate (.binary '-' (.number (some 3)) (.number (some 2))) [] [] 0 =
      .ok (some 1, []) := by
  refine ⟨by decide, by decide, by decide, ?_⟩
  simp only [evaluate, jsSub]
  norm_num

/-- C10: on the heap model, a successful `evaluate` never writes any
pre-existing scope object — in particular the contents of the caller's
object are the same after the call — and on an `assignment` node the
returned scope is a freshly allocated object (its reference is not any
pre-existing one).  Together with the result/scope pair in `evaluateHeap`'s
(and `evaluate`'s) return type, this is the claimed no-mutation contract. -/
theorem claim10_no_mutation (ast : Ast) (sid : Nat) (H : Heap)
    (lineResults : List Entry) (currentLine : Nat) (v : Val) (sid' : Nat)
    (H' : Heap)
    (h : evaluateHeap ast sid H lineResults currentLine = .ok (v, sid', H')) :
    (∀ j, j < H.length → H'.get? j = H.get? j) ∧
    (∀ x e, ast = .assignment x e → H.length ≤ sid' ∧ sid' < H'.length) := by
  refine
    ⟨(evaluateHeap_frame ast sid H lineResults currentLine v sid' H' h).2, ?_⟩
  intro x e hx
  subst hx
  simp only [evaluateHeap] at h
  split at h
  · exact absurd h (by simp)
  next value sid1 H1 he =>
    simp only [Except.ok.injEq, Prod.mk.injEq] at h
    obtain ⟨-, hsid, hH'⟩ := h
    obtain ⟨h1l, -⟩ :=
      evaluateHeap_frame e sid H lineResults currentLine value sid1 H1 he
    subst hH'
    constructor
    · omega
    · simp [← hsid]

theorem claim10_witness :
    (∀ j, j < ([[("y", some 1)]] : Heap).length →
      ([[("y", some 1)], [("y", some 1), ("x", some 5)]] : Heap).get? j =
        ([[("y", some 1)]] : Heap).get? j) ∧
    (∀ x e, Ast.assignment "x" (Ast.number (some 5)) = Ast.assignment x e →
      ([[("y", some 1)]] : Heap).length ≤ 1 ∧
      1 < ([[("y", some 1)], [("y", some 1), ("x", some 5)]] : Heap).length) :=
  claim10_no_mutation (.assignment "x" (.number (some 5))) 0 [[("y", some 1)]]
    [] 0 (some 5) 1 [[("y", some 1)], [("y", some 1), ("x", some 5)]]
    (by decide)
